import Mathlib

/-!
Verification of the claim-graph trust computation engine.

Strings of the Go source are byte sequences; they are modelled as `List Nat`
(each entry a byte value).  Timestamps are modelled as `Int` (nanoseconds since
the Unix epoch, the precision of `time.Time` used by the source).  Floating
point arithmetic of the reputation engine is modelled over `ℚ`.
-/

namespace ClaimGraph

/-- Byte string: a Go string viewed as its byte sequence. -/
abbrev Bytes := List Nat

/-! ## Byte-level encoders (Go `encoding/binary`, big endian) -/

/-- Big-endian 4-byte encoding of a natural number, as Go's
`binary.Write(buf, binary.BigEndian, uint32 n)` produces (the value is
taken modulo 2^32 by the byte extraction itself). -/
def u32be (n : Nat) : Bytes :=
  [n / 2 ^ 24 % 256, n / 2 ^ 16 % 256, n / 2 ^ 8 % 256, n % 256]

/-- Big-endian 8-byte encoding of a natural number (low 64 bits). -/
def u64be (n : Nat) : Bytes :=
  [n / 2 ^ 56 % 256, n / 2 ^ 48 % 256, n / 2 ^ 40 % 256, n / 2 ^ 32 % 256,
   n / 2 ^ 24 % 256, n / 2 ^ 16 % 256, n / 2 ^ 8 % 256, n % 256]

/-- Big-endian 8-byte two's-complement encoding of a signed 64-bit integer,
as Go's `binary.Write(buf, binary.BigEndian, int64 z)` produces. -/
def i64be (z : Int) : Bytes :=
  u64be (z % (2 ^ 64 : Int)).toNat

/-! ## SHA-2-256 (Go `crypto/sha256` via `multihash.Sum`) -/

/-- Right rotation of a 32-bit word. -/
def rotr32 (n x : Nat) : Nat :=
  ((x >>> n) ||| (x <<< (32 - n))) % 2 ^ 32

/-- SHA-256 small sigma 0. -/
def ssig0 (x : Nat) : Nat := rotr32 7 x ^^^ rotr32 18 x ^^^ (x >>> 3)

/-- SHA-256 small sigma 1. -/
def ssig1 (x : Nat) : Nat := rotr32 17 x ^^^ rotr32 19 x ^^^ (x >>> 10)

/-- SHA-256 big sigma 0. -/
def bsig0 (x : Nat) : Nat := rotr32 2 x ^^^ rotr32 13 x ^^^ rotr32 22 x

/-- SHA-256 big sigma 1. -/
def bsig1 (x : Nat) : Nat := rotr32 6 x ^^^ rotr32 11 x ^^^ rotr32 25 x

/-- SHA-256 round constants (the standard table, in decimal). -/
def sha256K : List Nat :=
  [1116352408, 1899447441, 3049323471, 3921009573, 961987163, 1508970993,
   2453635748, 2870763221, 3624381080, 310598401, 607225278, 1426881987,
   1925078388, 2162078206, 2614888103, 3248222580, 3835390401, 4022224774,
   264347078, 604807628, 770255983, 1249150122, 1555081692, 1996064986,
   2554220882, 2821834349, 2952996808, 3210313671, 3336571891, 3584528711,
   113926993, 338241895, 666307205, 773529912, 1294757372, 1396182291,
   1695183700, 1986661051, 2177026350, 2456956037, 2730485921, 2820302411,
   3259730800, 3345764771, 3516065817, 3600352804, 4094571909, 275423344,
   430227734, 506948616, 659060556, 883997877, 958139571, 1322822218,
   1537002063, 1747873779, 1955562222, 2024104815, 2227730452, 2361852424,
   2428436474, 2756734187, 3204031479, 3329325298]

/-- SHA-256 initial hash state (the standard eight words, in decimal). -/
def sha256H0 : List Nat :=
  [1779033703, 3144134277, 1013904242, 2773480762, 1359893119, 2600822924,
   528734635, 1541459225]

/-- Read a big-endian 32-bit word from four bytes. -/
def word32 (bs : Bytes) : Nat :=
  bs.foldl (fun a b => a * 256 + b) 0

/-- Message schedule: expand the 16 words of a block to 64. -/
def sha256Schedule (block : Bytes) : List Nat :=
  let w0 := (List.range 16).map fun i => word32 ((block.drop (4 * i)).take 4)
  (List.range 48).foldl
    (fun w t =>
      w ++ [(w.getD t 0 + ssig0 (w.getD (t + 1) 0) + w.getD (t + 9) 0
             + ssig1 (w.getD (t + 14) 0)) % 2 ^ 32])
    w0

/-- One SHA-256 round on the eight working variables. -/
def sha256Round (w : List Nat) (st : List Nat) (t : Nat) : List Nat :=
  match st with
  | [a, b, c, d, e, f, g, h] =>
    let ch := (e &&& f) ^^^ ((2 ^ 32 - 1 - e) &&& g)
    let temp1 := (h + bsig1 e + ch + sha256K.getD t 0 + w.getD t 0) % 2 ^ 32
    let maj := (a &&& b) ^^^ (a &&& c) ^^^ (b &&& c)
    let temp2 := (bsig0 a + maj) % 2 ^ 32
    [(temp1 + temp2) % 2 ^ 32, a, b, c, (d + temp1) % 2 ^ 32, e, f, g]
  | _ => st

/-- Compress one 64-byte block into the hash state. -/
def sha256Compress (h : List Nat) (block : Bytes) : List Nat :=
  let w := sha256Schedule block
  let fin := (List.range 64).foldl (sha256Round w) h
  (h.zip fin).map fun p => (p.1 + p.2) % 2 ^ 32

/-- SHA-256 padding: append 0x80, zeros, and the 64-bit big-endian bit length,
to a multiple of 64 bytes. -/
def sha256Pad (msg : Bytes) : Bytes :=
  let L := msg.length
  let k := (119 - L % 64) % 64
  msg ++ [128] ++ List.replicate k 0 ++ u64be (8 * L)

/-- SHA-256 digest of a byte sequence, as 32 bytes. -/
def sha256 (msg : Bytes) : Bytes :=
  let padded := sha256Pad msg
  let blocks := (List.range (padded.length / 64)).map fun i => (padded.drop (64 * i)).take 64
  let hfin := blocks.foldl sha256Compress sha256H0
  (hfin.map fun wrd => [wrd / 2 ^ 24 % 256, wrd / 2 ^ 16 % 256, wrd / 2 ^ 8 % 256, wrd % 256]).flatten

/-! ## Multihash / CIDv1 (ipfs go-cid, multiformats go-multihash) -/

/-- The eight bits of a byte, most significant first. -/
def bitsOfByte (b : Nat) : List Nat :=
  [b / 128 % 2, b / 64 % 2, b / 32 % 2, b / 16 % 2, b / 8 % 2, b / 4 % 2, b / 2 % 2, b % 2]

/-- Lowercase RFC 4648 base32 without padding (the multibase `base32` encoding
used by `cid.String()` for CIDv1): successive 5-bit groups, the final group
zero-padded on the right, each mapped into the alphabet a..z 2..7. -/
def base32Chars (bs : Bytes) : Bytes :=
  let bits := (bs.map bitsOfByte).flatten
  (List.range ((bits.length + 4) / 5)).map fun i =>
    let g := (bits.drop (5 * i)).take 5
    let v := (g ++ List.replicate (5 - g.length) 0).foldl (fun a b => 2 * a + b) 0
    if v < 26 then 97 + v else v + 24

/-- Multihash of a payload with code SHA2-256 (0x12) and digest length 32,
as produced by `multihash.Sum(data, multihash.SHA2_256, -1)`. -/
def multihashSum (data : Bytes) : Bytes :=
  0x12 :: 0x20 :: sha256 data

/-- Binary form of a CIDv1 with the `raw` codec (0x55), as produced by
`cid.NewCidV1(cid.Raw, mh)`. -/
def cidV1Raw (mh : Bytes) : Bytes :=
  0x01 :: 0x55 :: mh

/-- String form of a CIDv1: multibase prefix `b` (0x62) followed by the
lowercase base32 encoding of the binary CID. -/
def cidToString (bs : Bytes) : Bytes :=
  0x62 :: base32Chars bs

/-! ## Claim data model (src/unnamed/part_002) -/

/-- Statement represents what is being claimed. -/
structure Statement where
  subject : Bytes
  predicate : Bytes
  object : Bytes
  domain : Bytes
  deriving DecidableEq, Repr

/-- Attestation represents a witness signature on a claim. -/
structure Attestation where
  witnessID : Bytes
  signature : Bytes
  timestamp : Int
  deriving DecidableEq, Repr

/-- Claim represents a statement with evidence and attestations. -/
structure Claim where
  id : Bytes
  statement : Statement
  evidence : List Bytes
  timeEvent : Bytes
  witnesses : List Attestation
  created : Int
  metadata : List (Bytes × Bytes)
  deriving DecidableEq, Repr

/-- Go's `writeString`: 4-byte big-endian length prefix, then the raw bytes. -/
def writeStr (s : Bytes) : Bytes :=
  u32be s.length ++ s

/-- The sorted copy of the evidence list made by `serializeClaimContent`
(Go `sort.Strings`, byte-wise lexicographic ascending). -/
def sortEvidence (l : List Bytes) : List Bytes :=
  List.insertionSort (· ≤ ·) l

/-- serializeClaimContent creates a deterministic byte representation:
the four statement fields, the sorted evidence with a count, the time event,
and the creation time in Unix nanoseconds. -/
def serializeClaimContent (c : Claim) : Bytes :=
  let sortedEvidence := sortEvidence c.evidence
  writeStr c.statement.subject ++ writeStr c.statement.predicate ++
    writeStr c.statement.object ++ writeStr c.statement.domain ++
    u32be sortedEvidence.length ++ (sortedEvidence.map writeStr).flatten ++
    writeStr c.timeEvent ++ i64be c.created

/-- ComputeCID computes the content-addressed identifier for a claim:
the CIDv1 (raw codec) of the SHA2-256 multihash of the serialized content. -/
def ComputeCID (c : Claim) : Bytes :=
  cidToString (cidV1Raw (multihashSum (serializeClaimContent c)))

/-- VerifyCID checks if a claim's ID matches its computed CID
(`true` models the nil-error outcome of the Go function). -/
def VerifyCID (c : Claim) : Bool :=
  c.id == ComputeCID c

/-- NewClaim creates a new claim with computed CID; `now` is the creation
time (Go `time.Now().UTC()`) in Unix nanoseconds. -/
def NewClaim (statement : Statement) (evidence : List Bytes) (timeEvent : Bytes)
    (now : Int) : Claim :=
  let c : Claim :=
    { id := [], statement := statement, evidence := evidence, timeEvent := timeEvent,
      witnesses := [], created := now, metadata := [] }
  { c with id := ComputeCID c }

/-! ## Witness / attestation protocol (src/claim/witness.go) -/

/-- Value of one hex digit character (Go `encoding/hex` accepts the digits
0-9, a-f and A-F). -/
def hexDigitVal (b : Nat) : Option Nat :=
  if 48 ≤ b ∧ b ≤ 57 then some (b - 48)
  else if 97 ≤ b ∧ b ≤ 102 then some (b - 87)
  else if 65 ≤ b ∧ b ≤ 70 then some (b - 55)
  else none

/-- Go `hex.DecodeString`: fails on odd length or any non-hex character,
otherwise decodes successive character pairs into bytes. -/
def hexDecode : Bytes → Option Bytes
  | [] => some []
  | [_] => none
  | hi :: lo :: rest =>
    match hexDigitVal hi, hexDigitVal lo, hexDecode rest with
    | some h, some l, some bs => some ((16 * h + l) :: bs)
    | _, _, _ => none

/-- Lowercase hex digit character for a value below 16. -/
def hexDigitChar (n : Nat) : Nat :=
  if n < 10 then 48 + n else 87 + n

/-- Go `hex.EncodeToString`: each byte as two lowercase hex characters,
high nibble first. -/
def hexEncode (bs : Bytes) : Bytes :=
  (bs.map fun b => [hexDigitChar (b / 16 % 16), hexDigitChar (b % 16)]).flatten

/-- Witness represents an entity that can attest to claims; `privateKey`
is `some` only for a local witness. -/
structure Witness where
  id : Bytes
  publicKey : Bytes
  privateKey : Option Bytes
  metadata : List (Bytes × Bytes)
  deriving DecidableEq, Repr

/-- GenerateWitness creates a new witness around the fresh keypair
`(pub, priv)` delivered by `ed25519.GenerateKey`. -/
def GenerateWitness (pub priv : Bytes) : Witness :=
  { id := hexEncode pub, publicKey := pub, privateKey := some priv, metadata := [] }

/-- WitnessFromPublicKey creates a witness from an existing public key. -/
def WitnessFromPublicKey (pub : Bytes) : Witness :=
  { id := hexEncode pub, publicKey := pub, privateKey := none, metadata := [] }

/-- WitnessFromID creates a witness from a hex-encoded public key ID;
fails if the hex is malformed or decodes to the wrong key length.
The stored `id` is the input as given. -/
def WitnessFromID (id : Bytes) : Option Witness :=
  match hexDecode id with
  | none => none
  | some pubBytes =>
    if pubBytes.length ≠ 32 then none
    else some { id := id, publicKey := pubBytes, privateKey := none, metadata := [] }

/-- Failure outcomes of the attestation functions in witness.go. -/
inductive WitnessError where
  | invalidWitnessID
  | invalidKeyLength
  | invalidSignature
  | duplicateWitness
  deriving DecidableEq, Repr

/-- VerifyAttestation verifies that an attestation is valid for a claim:
decode the witness public key from the ID, check its length, then check the
signature over the claim ID.  `verify pub msg sig` stands for the external
`ed25519.Verify(pub, msg, sig)`; `none` models the nil-error outcome. -/
def VerifyAttestation (verify : Bytes → Bytes → Bytes → Bool)
    (c : Claim) (a : Attestation) : Option WitnessError :=
  match hexDecode a.witnessID with
  | none => some .invalidWitnessID
  | some pubBytes =>
    if pubBytes.length ≠ 32 then some .invalidKeyLength
    else if verify pubBytes c.id a.signature then none
    else some .invalidSignature

/-- AddAttestation adds a verified attestation to a claim: verification
first, then the duplicate-witness check, then append.  The result pairs the
claim after the call (Go mutates it in place) with the error outcome. -/
def AddAttestation (verify : Bytes → Bytes → Bytes → Bool)
    (c : Claim) (a : Attestation) : Claim × Option WitnessError :=
  match VerifyAttestation verify c a with
  | some e => (c, some e)
  | none =>
    if c.witnesses.any (fun existing => existing.witnessID == a.witnessID) then
      (c, some .duplicateWitness)
    else
      ({ c with witnesses := c.witnesses ++ [a] }, none)

/-! ## Reputation engine (src/claim/reputation.go) -/

/-- DomainReputation tracks reputation in a specific domain. -/
structure DomainReputation where
  domain : Bytes
  totalClaims : Nat
  agreedClaims : Nat
  disputedClaims : Nat
  deriving DecidableEq, Repr

/-- ReputationRecord tracks a single witness's reputation.  Timestamps are
Unix nanoseconds. -/
structure ReputationRecord where
  witnessID : Bytes
  totalClaims : Nat
  agreedClaims : Nat
  disputedClaims : Nat
  domains : List (Bytes × DomainReputation)
  firstSeen : Int
  lastSeen : Int
  deriving DecidableEq, Repr

/-- The reputation store's internal index: witness ID → record (a Go map,
modelled as an association list with unique keys). -/
abbrev RepStore := List (Bytes × ReputationRecord)

/-- Lookup in an association list (Go map read `m[k]`). -/
def lookupA {β : Type} : List (Bytes × β) → Bytes → Option β
  | [], _ => none
  | (k, v) :: rest, key => if k = key then some v else lookupA rest key

/-- Point update of an association list at a present key (Go mutation of the
value a map entry points to). -/
def updateA {β : Type} : List (Bytes × β) → Bytes → (β → β) → List (Bytes × β)
  | [], _, _ => []
  | (k, v) :: rest, key, f =>
    if k = key then (k, f v) :: rest else (k, v) :: updateA rest key f

/-- The per-record mutation performed by RecordAgreement once the record is
found: increment `agreedClaims`, and the domain counter when the domain
argument is non-empty and already tracked. -/
def bumpAgreement (domain : Bytes) (r : ReputationRecord) : ReputationRecord :=
  let r1 := { r with agreedClaims := r.agreedClaims + 1 }
  if domain ≠ [] then
    match lookupA r1.domains domain with
    | some _ =>
      { r1 with domains :=
          updateA r1.domains domain fun d => { d with agreedClaims := d.agreedClaims + 1 } }
    | none => r1
  else r1

/-- The per-record mutation performed by RecordDispute once the record is
found: increment `disputedClaims`, and the domain counter when the domain
argument is non-empty and already tracked. -/
def bumpDispute (domain : Bytes) (r : ReputationRecord) : ReputationRecord :=
  let r1 := { r with disputedClaims := r.disputedClaims + 1 }
  if domain ≠ [] then
    match lookupA r1.domains domain with
    | some _ =>
      { r1 with domains :=
          updateA r1.domains domain fun d => { d with disputedClaims := d.disputedClaims + 1 } }
    | none => r1
  else r1

/-- RecordAgreement records that a witness agreed with consensus; a silent
no-op when the witness has no record. -/
def RecordAgreement (rs : RepStore) (witnessID domain : Bytes) : RepStore :=
  match lookupA rs witnessID with
  | none => rs
  | some _ => updateA rs witnessID (bumpAgreement domain)

/-- RecordDispute records that a witness was disputed; a silent no-op when
the witness has no record. -/
def RecordDispute (rs : RepStore) (witnessID domain : Bytes) : RepStore :=
  match lookupA rs witnessID with
  | none => rs
  | some _ => updateA rs witnessID (bumpDispute domain)

/-- Clamping to the unit interval, Go `math.Max(0, math.Min(1, x))`. -/
def clamp01 (x : ℚ) : ℚ :=
  max 0 (min 1 x)

/-- Score computes the reputation score for a witness, a value between 0
and 1.  `now` is the evaluation time in Unix nanoseconds (Go `time.Since`). -/
def ReputationRecord.Score (rr : ReputationRecord) (now : Int) : ℚ :=
  if rr.totalClaims = 0 then 1 / 2
  else
    let accuracy : ℚ := (rr.agreedClaims : ℚ) / (rr.totalClaims : ℚ)
    let disputeRatio : ℚ := (rr.disputedClaims : ℚ) / (rr.totalClaims : ℚ)
    let penalty := disputeRatio * (1 / 2)
    let ageHours : ℚ := ((now - rr.firstSeen : Int) : ℚ) / (3600 * 1000000000)
    let longevityBonus := min (ageHours / (24 * 365)) (1 / 10)
    let volumeWeight := min ((rr.totalClaims : ℚ) / 100) 1
    let rawScore := accuracy - penalty + longevityBonus
    clamp01 (rawScore * volumeWeight + 1 / 2 * (1 - volumeWeight))

/-- DomainScore computes the reputation score for a specific domain,
falling back to the global score when the domain is untracked or empty. -/
def ReputationRecord.DomainScore (rr : ReputationRecord) (domain : Bytes) (now : Int) : ℚ :=
  match lookupA rr.domains domain with
  | none => rr.Score now
  | some domainRep =>
    if domainRep.totalClaims = 0 then rr.Score now
    else
      let accuracy : ℚ := (domainRep.agreedClaims : ℚ) / (domainRep.totalClaims : ℚ)
      let disputeRatio : ℚ := (domainRep.disputedClaims : ℚ) / (domainRep.totalClaims : ℚ)
      let penalty := disputeRatio * (1 / 2)
      let volumeWeight := min ((domainRep.totalClaims : ℚ) / 50) 1
      let rawScore := accuracy - penalty
      clamp01 (rawScore * volumeWeight + rr.Score now * (1 - volumeWeight))

/-- The per-witness score used by ClaimConfidence: the domain score of the
looked-up record (GetRecord returns a value-equal copy), neutral 0.5 for an
unknown witness. -/
def witnessScore (rs : RepStore) (domain : Bytes) (witnessID : Bytes) (now : Int) : ℚ :=
  match lookupA rs witnessID with
  | some record => record.DomainScore domain now
  | none => 1 / 2

/-- ClaimConfidence computes the confidence score for a claim based on its
attestations: a reputation-weighted average of witness scores plus a capped
witness-count bonus, clamped to the unit interval. -/
def ClaimConfidence (c : Claim) (rs : RepStore) (now : Int) : ℚ :=
  if c.witnesses.length = 0 then 0
  else
    let scores := c.witnesses.map fun att => witnessScore rs c.statement.domain att.witnessID now
    let totalWeight := (scores.map fun s => 1 / 2 + s * (1 / 2)).sum
    let weightedSum := (scores.map fun s => s * (1 / 2 + s * (1 / 2))).sum
    if totalWeight = 0 then 0
    else
      let witnessBonus := min ((c.witnesses.length : ℚ) / 5) (1 / 5)
      clamp01 (weightedSum / totalWeight + witnessBonus)

/-! ## Claim identity: determinism and self-verification -/

/-- Sorting is invariant under permutation of the input: two permuted
evidence lists have the same sorted copy. -/
theorem sortEvidence_perm_eq {l₁ l₂ : List Bytes} (h : l₁.Perm l₂) :
    sortEvidence l₁ = sortEvidence l₂ :=
  List.eq_of_perm_of_sorted
    ((List.perm_insertionSort _ l₁).trans (h.trans (List.perm_insertionSort _ l₂).symm))
    (List.sorted_insertionSort _ l₁) (List.sorted_insertionSort _ l₂)

/-- Claim C1: ComputeCID is invariant to the input ordering of the evidence
sequence and to the contents of the witnesses list and metadata map (and the
stored id): fixing the statement, time event and creation time, any
permutation of evidence and any witnesses/metadata yield the same identifier. -/
theorem computeCID_invariant (c₁ c₂ : Claim)
    (hstmt : c₁.statement = c₂.statement)
    (hev : c₁.evidence.Perm c₂.evidence)
    (ht : c₁.timeEvent = c₂.timeEvent)
    (hcr : c₁.created = c₂.created) :
    ComputeCID c₁ = ComputeCID c₂ := by
  have hsort : sortEvidence c₁.evidence = sortEvidence c₂.evidence := sortEvidence_perm_eq hev
  simp [ComputeCID, serializeClaimContent, hstmt, ht, hcr, hsort]

/-- A concrete statement shared by the witness claims below. -/
def stmtW : Statement :=
  { subject := [115, 117], predicate := [112], object := [111], domain := [100] }

/-- A concrete claim with evidence in one order, one attestation and one
metadata entry. -/
def claimW1 : Claim :=
  { id := [], statement := stmtW, evidence := [[101, 50], [101, 49]],
    timeEvent := [116], witnesses := [{ witnessID := [119], signature := [1, 2], timestamp := 5 }],
    created := 42, metadata := [([107], [118])] }

/-- The same content with evidence permuted and different witnesses,
metadata and stored id. -/
def claimW2 : Claim :=
  { id := [99], statement := stmtW, evidence := [[101, 49], [101, 50]],
    timeEvent := [116], witnesses := [], created := 42, metadata := [] }

/-- Witness for C1: two concrete claims with permuted evidence and different
witnesses/metadata have the same identifier. -/
theorem computeCID_invariant_witness :
    claimW1.evidence.Perm claimW2.evidence ∧ claimW1.witnesses ≠ claimW2.witnesses ∧
      claimW1.metadata ≠ claimW2.metadata ∧ ComputeCID claimW1 = ComputeCID claimW2 :=
  ⟨by decide, by decide, by decide,
    computeCID_invariant claimW1 claimW2 rfl (by decide) rfl rfl⟩

/-- Modelled on the spec's words (§4.1): subject, predicate, object, domain
each as a 4-byte big-endian length prefix followed by the raw bytes; a
4-byte big-endian count of evidence entries followed by the entries sorted
lexicographically (byte-wise) ascending, each length-prefixed the same way;
time_event length-prefixed; created as a signed 64-bit big-endian nanosecond
timestamp.  The sort here is an independent algorithm (merge sort). -/
def canonicalHashInput (c : Claim) : Bytes :=
  u32be c.statement.subject.length ++ c.statement.subject ++
    u32be c.statement.predicate.length ++ c.statement.predicate ++
    u32be c.statement.object.length ++ c.statement.object ++
    u32be c.statement.domain.length ++ c.statement.domain ++
    u32be c.evidence.length ++
    ((c.evidence.mergeSort fun a b => decide (a ≤ b)).map fun e => u32be e.length ++ e).flatten ++
    u32be c.timeEvent.length ++ c.timeEvent ++
    i64be c.created

/-- Claim C2: the canonical hash input produced before hashing is exactly the
spec's layout, and the identifier is the SHA-2-256 digest of that byte
sequence wrapped as a CIDv1 (raw codec, multihash tag, multibase base32). -/
theorem serializeClaimContent_canonical (c : Claim) :
    serializeClaimContent c = canonicalHashInput c ∧
      ComputeCID c = cidToString (cidV1Raw (0x12 :: 0x20 :: sha256 (canonicalHashInput c))) := by
  have hs : (c.evidence.mergeSort fun a b => decide (a ≤ b)) = sortEvidence c.evidence :=
    List.mergeSort_eq_insertionSort (r := (· ≤ ·)) c.evidence
  have hlen : (sortEvidence c.evidence).length = c.evidence.length :=
    (List.perm_insertionSort _ c.evidence).length_eq
  have hw : writeStr = fun e : Bytes => u32be e.length ++ e := funext fun e => rfl
  have h1 : serializeClaimContent c = canonicalHashInput c := by
    simp [serializeClaimContent, canonicalHashInput, hw, hs, hlen]
  exact ⟨h1, by simp [ComputeCID, multihashSum, h1]⟩

/-- Claim C3: a freshly constructed claim always verifies: the constructor's
stored id equals the recomputed content identifier. -/
theorem verifyCID_newClaim (s : Statement) (e : List Bytes) (t : Bytes) (now : Int) :
    VerifyCID (NewClaim s e t now) = true :=
  beq_iff_eq.mpr rfl

/-! ## Attestation protocol -/

/-- Claim C4: AddAttestation runs signature verification before the duplicate
check: a verification failure is returned as-is (even when the witness is
already present), a valid signature from an already-present witness fails
with DuplicateWitness, every failure leaves the claim unchanged, and success
appends the attestation preserving insertion order. -/
theorem addAttestation_protocol (verify : Bytes → Bytes → Bytes → Bool)
    (c : Claim) (a : Attestation) :
    (∀ e, VerifyAttestation verify c a = some e → AddAttestation verify c a = (c, some e)) ∧
    (VerifyAttestation verify c a = none →
      (∃ ex ∈ c.witnesses, ex.witnessID = a.witnessID) →
        AddAttestation verify c a = (c, some .duplicateWitness)) ∧
    (∀ e, (AddAttestation verify c a).2 = some e → (AddAttestation verify c a).1 = c) ∧
    ((AddAttestation verify c a).2 = none →
      (AddAttestation verify c a).1.witnesses = c.witnesses ++ [a]) := by
  refine ⟨?_, ?_, ?_, ?_⟩
  · intro e he
    simp [AddAttestation, he]
  · intro hv hdup
    have hany : c.witnesses.any (fun ex => ex.witnessID == a.witnessID) = true := by
      rcases hdup with ⟨ex, hex, hid⟩
      exact List.any_eq_true.mpr ⟨ex, hex, beq_iff_eq.mpr hid⟩
    simp [AddAttestation, hv, hany]
  · intro e he
    unfold AddAttestation at he ⊢
    cases hv : VerifyAttestation verify c a with
    | some e' => simp [hv]
    | none =>
      rw [hv] at he
      by_cases hd : c.witnesses.any (fun ex => ex.witnessID == a.witnessID)
      · simp [hd]
      · simp [hd] at he
  · intro hn
    unfold AddAttestation at hn ⊢
    cases hv : VerifyAttestation verify c a with
    | some e' => rw [hv] at hn; simp at hn
    | none =>
      rw [hv] at hn
      by_cases hd : c.witnesses.any (fun ex => ex.witnessID == a.witnessID)
      · simp [hd] at hn
      · simp [hd]

/-- A witness ID that hex-decodes to 32 zero bytes. -/
def widZero : Bytes := List.replicate 64 48

/-- An attestation already on the claim below. -/
def attFirst : Attestation := { witnessID := widZero, signature := [1], timestamp := 0 }

/-- A fresh attestation by the same witness. -/
def attSecond : Attestation := { witnessID := widZero, signature := [2], timestamp := 1 }

/-- A claim already carrying `attFirst`. -/
def claimAtt : Claim :=
  { id := [120], statement := stmtW, evidence := [], timeEvent := [],
    witnesses := [attFirst], created := 0, metadata := [] }

/-- A verification function that accepts everything (models a context where
the signatures involved are valid). -/
def verifyAlways : Bytes → Bytes → Bytes → Bool := fun _ _ _ => true

/-- Witness for C4: a validly-signed attestation by an already-present
witness is rejected as a duplicate and the claim is unchanged. -/
theorem addAttestation_protocol_witness :
    VerifyAttestation verifyAlways claimAtt attSecond = none ∧
      AddAttestation verifyAlways claimAtt attSecond = (claimAtt, some .duplicateWitness) :=
  ⟨by decide,
    (addAttestation_protocol verifyAlways claimAtt attSecond).2.1 (by decide)
      ⟨attFirst, by decide, by decide⟩⟩

/-- A 64-character uppercase hex string (the characters `AB` repeated). -/
def upperHexID : Bytes := (List.replicate 32 ([65, 66] : Bytes)).flatten

/-- Claim C5 counterexample: WitnessFromID accepts an uppercase hex ID and stores
it as given, so the resulting witness's id is not the (lowercase) hex
encoding of its public key. -/
theorem witnessFromID_id_counterexample :
    ((WitnessFromID upperHexID).map fun w => w.id == hexEncode w.publicKey) = some false := by
  decide

/-- Claim C5 (amended): generate_witness and witness_from_public_key always set
the id to the hex encoding of the public key; witness_from_id stores the
input as the id, and that input hex-decodes to the public key (so it equals
the hex encoding exactly when the input is in lowercase hex). -/
theorem witnessID_canonical_amended (pub priv idv : Bytes) :
    (GenerateWitness pub priv).id = hexEncode (GenerateWitness pub priv).publicKey ∧
    (WitnessFromPublicKey pub).id = hexEncode (WitnessFromPublicKey pub).publicKey ∧
    ∀ w, WitnessFromID idv = some w → w.id = idv ∧ hexDecode w.id = some w.publicKey := by
  refine ⟨rfl, rfl, ?_⟩
  intro w hw
  unfold WitnessFromID at hw
  split at hw
  · exact absurd hw (by simp)
  · rename_i pb hd
    split at hw
    · exact absurd hw (by simp)
    · cases hw
      exact ⟨rfl, hd⟩

/-- The same ID in lowercase hex (the characters `ab` repeated). -/
def lowerHexID : Bytes := (List.replicate 32 ([97, 98] : Bytes)).flatten

/-- The witness WitnessFromID builds from `lowerHexID`. -/
def wLower : Witness :=
  { id := lowerHexID, publicKey := List.replicate 32 171, privateKey := none, metadata := [] }

/-- Witness for the amended C5: on a lowercase hex input the stored id is
the input and hex-decodes to the public key. -/
theorem witnessID_canonical_amended_witness :
    WitnessFromID lowerHexID = some wLower ∧
      wLower.id = lowerHexID ∧ hexDecode wLower.id = some wLower.publicKey :=
  have h : WitnessFromID lowerHexID = some wLower := by decide
  ⟨h, (witnessID_canonical_amended [0] [1] lowerHexID).2.2 wLower h⟩

/-! ## Reputation scoring: bounds and monotonicity -/

theorem clamp01_nonneg (x : ℚ) : 0 ≤ clamp01 x :=
  le_max_left 0 _

theorem clamp01_le_one (x : ℚ) : clamp01 x ≤ 1 :=
  max_le zero_le_one (min_le_left 1 x)

theorem clamp01_mono {x y : ℚ} (h : x ≤ y) : clamp01 x ≤ clamp01 y :=
  max_le_max le_rfl (min_le_min le_rfl h)

/-- Score is bounded in the unit interval. -/
theorem score_mem_unit (rr : ReputationRecord) (now : Int) :
    0 ≤ rr.Score now ∧ rr.Score now ≤ 1 := by
  unfold ReputationRecord.Score
  split
  · norm_num
  · exact ⟨clamp01_nonneg _, clamp01_le_one _⟩

/-- DomainScore is bounded in the unit interval. -/
theorem domainScore_mem_unit (rr : ReputationRecord) (domain : Bytes) (now : Int) :
    0 ≤ rr.DomainScore domain now ∧ rr.DomainScore domain now ≤ 1 := by
  unfold ReputationRecord.DomainScore
  split
  · exact score_mem_unit rr now
  · split
    · exact score_mem_unit rr now
    · exact ⟨clamp01_nonneg _, clamp01_le_one _⟩

/-- Claim C6: Score and DomainScore always lie in the closed interval [0, 1], for
any counter values and timestamps, and a record with no claims scores the
neutral 0.5. -/
theorem score_and_domainScore_bounds (rr : ReputationRecord) (domain : Bytes) (now : Int) :
    (0 ≤ rr.Score now ∧ rr.Score now ≤ 1) ∧
      (0 ≤ rr.DomainScore domain now ∧ rr.DomainScore domain now ≤ 1) ∧
      (rr.totalClaims = 0 → rr.Score now = 1 / 2) :=
  ⟨score_mem_unit rr now, domainScore_mem_unit rr domain now, fun h => by
    unfold ReputationRecord.Score
    rw [if_pos h]⟩

/-- A reputation record that has never attested. -/
def recUnseen : ReputationRecord :=
  { witnessID := [119], totalClaims := 0, agreedClaims := 0, disputedClaims := 0,
    domains := [], firstSeen := 0, lastSeen := 0 }

/-- Witness for C6: the unseen record scores exactly 0.5 and its domain
score is within bounds. -/
theorem score_and_domainScore_bounds_witness :
    recUnseen.totalClaims = 0 ∧ recUnseen.Score 0 = 1 / 2 ∧
      0 ≤ recUnseen.DomainScore [100] 0 :=
  ⟨rfl, (score_and_domainScore_bounds recUnseen [100] 0).2.2 rfl,
    (score_and_domainScore_bounds recUnseen [100] 0).2.1.1⟩

/-- Claim C7: at a fixed evaluation time, one more agreement never decreases the
score, and one more dispute never increases it (the other fields held
fixed). -/
theorem score_monotone (rr : ReputationRecord) (now : Int) :
    rr.Score now ≤ ReputationRecord.Score { rr with agreedClaims := rr.agreedClaims + 1 } now ∧
      ReputationRecord.Score { rr with disputedClaims := rr.disputedClaims + 1 } now ≤
        rr.Score now := by
  by_cases h : rr.totalClaims = 0
  · constructor <;> simp [ReputationRecord.Score, h]
  · have ht : (0 : ℚ) < (rr.totalClaims : ℚ) := by
      exact_mod_cast Nat.pos_of_ne_zero h
    constructor
    · simp only [ReputationRecord.Score, h, if_false]
      apply clamp01_mono
      gcongr
      exact_mod_cast Nat.le_succ rr.agreedClaims
    · simp only [ReputationRecord.Score, h, if_false]
      apply clamp01_mono
      gcongr
      exact_mod_cast Nat.le_succ rr.disputedClaims

/-! ## Confidence aggregation -/

/-- The per-witness score is never negative. -/
theorem witnessScore_nonneg (rs : RepStore) (dom wid : Bytes) (now : Int) :
    0 ≤ witnessScore rs dom wid now := by
  unfold witnessScore
  split
  · exact (domainScore_mem_unit _ _ _).1
  · norm_num

/-- The accumulated weight over a non-empty witness list is positive
(each weight is at least 1/2). -/
theorem weight_sum_pos (c : Claim) (rs : RepStore) (now : Int) (hne : c.witnesses ≠ []) :
    0 < (c.witnesses.map fun att =>
          1 / 2 + witnessScore rs c.statement.domain att.witnessID now * (1 / 2)).sum := by
  obtain ⟨a, l, h⟩ := List.exists_cons_of_ne_nil hne
  rw [h]
  have h1 : 0 ≤ witnessScore rs c.statement.domain a.witnessID now := witnessScore_nonneg ..
  have h2 : 0 ≤ (l.map fun att =>
      1 / 2 + witnessScore rs c.statement.domain att.witnessID now * (1 / 2)).sum := by
    apply List.sum_nonneg
    intro x hx
    obtain ⟨att, _, rfl⟩ := List.mem_map.mp hx
    have := witnessScore_nonneg rs c.statement.domain att.witnessID now
    linarith
  simp only [List.map_cons, List.sum_cons]
  linarith

/-- For a non-empty witness list, ClaimConfidence is the clamped weighted
average of the per-witness scores (weights 1/2 + score/2) plus the capped
witness-count bonus. -/
theorem claimConfidence_eq_formula (c : Claim) (rs : RepStore) (now : Int)
    (hne : c.witnesses ≠ []) :
    ClaimConfidence c rs now =
      clamp01
        ((c.witnesses.map fun att =>
            witnessScore rs c.statement.domain att.witnessID now *
              (1 / 2 + witnessScore rs c.statement.domain att.witnessID now * (1 / 2))).sum /
          (c.witnesses.map fun att =>
            1 / 2 + witnessScore rs c.statement.domain att.witnessID now * (1 / 2)).sum +
          min ((c.witnesses.length : ℚ) / 5) (1 / 5)) := by
  have hlen : ¬c.witnesses.length = 0 := by simpa using hne
  have hpos := weight_sum_pos c rs now hne
  simp only [ClaimConfidence, if_neg hlen, List.map_map, Function.comp_def]
  rw [if_neg hpos.ne']

/-- Claim C8: ClaimConfidence is exactly 0 for a claim without witnesses, always
lies in [0, 1], an unknown witness scores the neutral 0.5, and for a
non-empty witness list it is the clamped weighted average (weight
1/2 + score/2) plus the capped min(count/5, 1/5) bonus. -/
theorem claimConfidence_spec (c : Claim) (rs : RepStore) (now : Int) :
    (c.witnesses = [] → ClaimConfidence c rs now = 0) ∧
      (0 ≤ ClaimConfidence c rs now ∧ ClaimConfidence c rs now ≤ 1) ∧
      (∀ wid, lookupA rs wid = none → witnessScore rs c.statement.domain wid now = 1 / 2) ∧
      (c.witnesses ≠ [] →
        ClaimConfidence c rs now =
          clamp01
            ((c.witnesses.map fun att =>
                witnessScore rs c.statement.domain att.witnessID now *
                  (1 / 2 + witnessScore rs c.statement.domain att.witnessID now * (1 / 2))).sum /
              (c.witnesses.map fun att =>
                1 / 2 + witnessScore rs c.statement.domain att.witnessID now * (1 / 2)).sum +
              min ((c.witnesses.length : ℚ) / 5) (1 / 5))) := by
  refine ⟨?_, ?_, ?_, claimConfidence_eq_formula c rs now⟩
  · intro h
    simp [ClaimConfidence, h]
  · by_cases h0 : c.witnesses.length = 0
    · constructor <;> simp [ClaimConfidence, h0]
    · have hne : c.witnesses ≠ [] := by
        intro h
        exact h0 (by simp [h])
      rw [claimConfidence_eq_formula c rs now hne]
      exact ⟨clamp01_nonneg _, clamp01_le_one _⟩
  · intro wid h
    simp [witnessScore, h]

/-- A concrete per-domain reputation. -/
def domRepW : DomainReputation :=
  { domain := [100], totalClaims := 3, agreedClaims := 1, disputedClaims := 0 }

/-- A concrete reputation record tracking the domain `[100]`. -/
def recW : ReputationRecord :=
  { witnessID := [119], totalClaims := 5, agreedClaims := 2, disputedClaims := 1,
    domains := [([100], domRepW)], firstSeen := 10, lastSeen := 20 }

/-- A concrete store holding `recW` under the key `[119]`. -/
def storeW : RepStore := [([119], recW)]

/-- A concrete claim without witnesses. -/
def claimNoWit : Claim :=
  { id := [], statement := stmtW, evidence := [], timeEvent := [],
    witnesses := [], created := 0, metadata := [] }

/-- Witness for C8: a witness-less claim has confidence 0, and the one
attested claim's confidence is the stated clamped formula. -/
theorem claimConfidence_spec_witness :
    ClaimConfidence claimNoWit storeW 0 = 0 ∧
      ClaimConfidence claimAtt storeW 0 =
        clamp01
          ((claimAtt.witnesses.map fun att =>
              witnessScore storeW claimAtt.statement.domain att.witnessID 0 *
                (1 / 2 + witnessScore storeW claimAtt.statement.domain att.witnessID 0 * (1 / 2))).sum /
            (claimAtt.witnesses.map fun att =>
              1 / 2 + witnessScore storeW claimAtt.statement.domain att.witnessID 0 * (1 / 2)).sum +
            min ((claimAtt.witnesses.length : ℚ) / 5) (1 / 5)) :=
  ⟨(claimConfidence_spec claimNoWit storeW 0).1 rfl,
   (claimConfidence_spec claimAtt storeW 0).2.2.2 (by decide)⟩

/-- Claim C10: the per-witness score used in ClaimConfidence is the looked-up
record's domain score for the claim's statement domain, falling back to the
record's global score when the domain is untracked or has zero claims, and
to the neutral 0.5 when the witness has no record at all. -/
theorem claimConfidence_uses_domainScore (rs : RepStore) (now : Int) :
    (∀ dom wid, lookupA rs wid = none → witnessScore rs dom wid now = 1 / 2) ∧
      (∀ dom wid r, lookupA rs wid = some r →
        witnessScore rs dom wid now = r.DomainScore dom now ∧
          (lookupA r.domains dom = none → r.DomainScore dom now = r.Score now) ∧
          (∀ d, lookupA r.domains dom = some d → d.totalClaims = 0 →
            r.DomainScore dom now = r.Score now)) ∧
      (∀ c : Claim, c.witnesses ≠ [] →
        ClaimConfidence c rs now =
          clamp01
            (((c.witnesses.map fun att =>
                  witnessScore rs c.statement.domain att.witnessID now).map
                fun s => s * (1 / 2 + s * (1 / 2))).sum /
              ((c.witnesses.map fun att =>
                  witnessScore rs c.statement.domain att.witnessID now).map
                fun s => 1 / 2 + s * (1 / 2)).sum +
              min ((c.witnesses.length : ℚ) / 5) (1 / 5))) := by
  refine ⟨?_, ?_, ?_⟩
  · intro dom wid h
    simp [witnessScore, h]
  · intro dom wid r h
    refine ⟨by simp [witnessScore, h], ?_, ?_⟩
    · intro hd
      simp [ReputationRecord.DomainScore, hd]
    · intro d hd htot
      simp [ReputationRecord.DomainScore, hd, htot]
  · intro c hne
    rw [claimConfidence_eq_formula c rs now hne]
    simp [List.map_map, Function.comp_def]

/-- Witness for C10: an unknown witness scores 0.5, a known witness scores
its domain score, and an untracked domain falls back to the global score. -/
theorem claimConfidence_uses_domainScore_witness :
    witnessScore storeW [100] [121] 0 = 1 / 2 ∧
      witnessScore storeW [100] [119] 0 = recW.DomainScore [100] 0 ∧
      recW.DomainScore [122] 0 = recW.Score 0 :=
  ⟨(claimConfidence_uses_domainScore storeW 0).1 [100] [121] (by decide),
   ((claimConfidence_uses_domainScore storeW 0).2.1 [100] [119] recW (by decide)).1,
   ((claimConfidence_uses_domainScore storeW 0).2.1 [122] [119] recW (by decide)).2.1
     (by decide)⟩

/-! ## Reputation recording: agreement and dispute -/

theorem lookupA_updateA_self {β : Type} (l : List (Bytes × β)) (k : Bytes) (f : β → β)
    (v : β) (h : lookupA l k = some v) : lookupA (updateA l k f) k = some (f v) := by
  induction l with
  | nil => simp [lookupA] at h
  | cons p rest ih =>
    obtain ⟨k', v'⟩ := p
    by_cases hk : k' = k
    · subst hk
      simp [lookupA] at h
      simp [updateA, lookupA, h]
    · simp [lookupA, hk] at h
      simp only [updateA, lookupA, hk, if_false]
      exact ih h

theorem lookupA_updateA_ne {β : Type} (l : List (Bytes × β)) (k k' : Bytes) (f : β → β)
    (h : k' ≠ k) : lookupA (updateA l k f) k' = lookupA l k' := by
  induction l with
  | nil => rfl
  | cons p rest ih =>
    obtain ⟨k₀, v₀⟩ := p
    by_cases h0 : k₀ = k
    · subst h0
      simp [updateA, lookupA, Ne.symm h]
    · simp [updateA, lookupA, h0, ih]

/-- bumpAgreement only increments the agreement counter among the record's
scalar fields. -/
theorem bumpAgreement_fields (dom : Bytes) (r : ReputationRecord) :
    (bumpAgreement dom r).agreedClaims = r.agreedClaims + 1 ∧
      (bumpAgreement dom r).disputedClaims = r.disputedClaims ∧
      (bumpAgreement dom r).totalClaims = r.totalClaims ∧
      (bumpAgreement dom r).firstSeen = r.firstSeen ∧
      (bumpAgreement dom r).lastSeen = r.lastSeen := by
  simp only [bumpAgreement]
  split
  · split <;> simp
  · simp

/-- bumpDispute only increments the dispute counter among the record's
scalar fields. -/
theorem bumpDispute_fields (dom : Bytes) (r : ReputationRecord) :
    (bumpDispute dom r).disputedClaims = r.disputedClaims + 1 ∧
      (bumpDispute dom r).agreedClaims = r.agreedClaims ∧
      (bumpDispute dom r).totalClaims = r.totalClaims ∧
      (bumpDispute dom r).firstSeen = r.firstSeen ∧
      (bumpDispute dom r).lastSeen = r.lastSeen := by
  simp only [bumpDispute]
  split
  · split <;> simp
  · simp

/-- With an empty or untracked domain the domain map is unchanged. -/
theorem bumpAgreement_domains_eq (dom : Bytes) (r : ReputationRecord)
    (h : dom = [] ∨ lookupA r.domains dom = none) :
    (bumpAgreement dom r).domains = r.domains := by
  simp only [bumpAgreement]
  rcases h with h | h
  · simp [h]
  · split
    · simp [h]
    · rfl

/-- With an empty or untracked domain the domain map is unchanged. -/
theorem bumpDispute_domains_eq (dom : Bytes) (r : ReputationRecord)
    (h : dom = [] ∨ lookupA r.domains dom = none) :
    (bumpDispute dom r).domains = r.domains := by
  simp only [bumpDispute]
  rcases h with h | h
  · simp [h]
  · split
    · simp [h]
    · rfl

/-- With a non-empty tracked domain, exactly that domain's agreement counter
is incremented. -/
theorem bumpAgreement_domain_upd (dom : Bytes) (r : ReputationRecord) (d : DomainReputation)
    (hne : dom ≠ []) (h : lookupA r.domains dom = some d) :
    lookupA (bumpAgreement dom r).domains dom =
        some { d with agreedClaims := d.agreedClaims + 1 } ∧
      ∀ d', d' ≠ dom → lookupA (bumpAgreement dom r).domains d' = lookupA r.domains d' := by
  simp only [bumpAgreement, hne, ne_eq, not_false_iff, if_true, h]
  exact ⟨lookupA_updateA_self _ _ _ _ h, fun d' hd' => lookupA_updateA_ne _ _ _ _ hd'⟩

/-- With a non-empty tracked domain, exactly that domain's dispute counter
is incremented. -/
theorem bumpDispute_domain_upd (dom : Bytes) (r : ReputationRecord) (d : DomainReputation)
    (hne : dom ≠ []) (h : lookupA r.domains dom = some d) :
    lookupA (bumpDispute dom r).domains dom =
        some { d with disputedClaims := d.disputedClaims + 1 } ∧
      ∀ d', d' ≠ dom → lookupA (bumpDispute dom r).domains d' = lookupA r.domains d' := by
  simp only [bumpDispute, hne, ne_eq, not_false_iff, if_true, h]
  exact ⟨lookupA_updateA_self _ _ _ _ h, fun d' hd' => lookupA_updateA_ne _ _ _ _ hd'⟩

/-- Claim C9: RecordAgreement and RecordDispute are silent no-ops for an unknown
witness; for a known witness they update only that witness's record,
incrementing the global agreed/disputed counter and, exactly when the domain
argument is non-empty and already tracked, the per-domain counter, leaving
total claims and both timestamps unchanged. -/
theorem recordAgreementDispute_state (rs : RepStore) (wid dom : Bytes) :
    (lookupA rs wid = none →
      RecordAgreement rs wid dom = rs ∧ RecordDispute rs wid dom = rs) ∧
      ∀ r, lookupA rs wid = some r →
        (lookupA (RecordAgreement rs wid dom) wid = some (bumpAgreement dom r) ∧
          lookupA (RecordDispute rs wid dom) wid = some (bumpDispute dom r)) ∧
        (∀ w', w' ≠ wid →
          lookupA (RecordAgreement rs wid dom) w' = lookupA rs w' ∧
          lookupA (RecordDispute rs wid dom) w' = lookupA rs w') ∧
        ((bumpAgreement dom r).agreedClaims = r.agreedClaims + 1 ∧
          (bumpAgreement dom r).disputedClaims = r.disputedClaims ∧
          (bumpAgreement dom r).totalClaims = r.totalClaims ∧
          (bumpAgreement dom r).firstSeen = r.firstSeen ∧
          (bumpAgreement dom r).lastSeen = r.lastSeen) ∧
        ((bumpDispute dom r).disputedClaims = r.disputedClaims + 1 ∧
          (bumpDispute dom r).agreedClaims = r.agreedClaims ∧
          (bumpDispute dom r).totalClaims = r.totalClaims ∧
          (bumpDispute dom r).firstSeen = r.firstSeen ∧
          (bumpDispute dom r).lastSeen = r.lastSeen) ∧
        (∀ d, dom ≠ [] → lookupA r.domains dom = some d →
          lookupA (bumpAgreement dom r).domains dom =
              some { d with agreedClaims := d.agreedClaims + 1 } ∧
          lookupA (bumpDispute dom r).domains dom =
              some { d with disputedClaims := d.disputedClaims + 1 } ∧
          ∀ d', d' ≠ dom →
            lookupA (bumpAgreement dom r).domains d' = lookupA r.domains d' ∧
            lookupA (bumpDispute dom r).domains d' = lookupA r.domains d') ∧
        ((dom = [] ∨ lookupA r.domains dom = none) →
          (bumpAgreement dom r).domains = r.domains ∧
          (bumpDispute dom r).domains = r.domains) := by
  constructor
  · intro h
    constructor <;> simp [RecordAgreement, RecordDispute, h]
  · intro r hlook
    have hRA : RecordAgreement rs wid dom = updateA rs wid (bumpAgreement dom) := by
      unfold RecordAgreement
      rw [hlook]
    have hRD : RecordDispute rs wid dom = updateA rs wid (bumpDispute dom) := by
      unfold RecordDispute
      rw [hlook]
    refine ⟨⟨?_, ?_⟩, ?_, bumpAgreement_fields dom r, bumpDispute_fields dom r, ?_, ?_⟩
    · rw [hRA]
      exact lookupA_updateA_self _ _ _ _ hlook
    · rw [hRD]
      exact lookupA_updateA_self _ _ _ _ hlook
    · intro w' hw'
      rw [hRA, hRD]
      exact ⟨lookupA_updateA_ne _ _ _ _ hw', lookupA_updateA_ne _ _ _ _ hw'⟩
    · intro d hdne hd
      exact ⟨(bumpAgreement_domain_upd dom r d hdne hd).1,
        (bumpDispute_domain_upd dom r d hdne hd).1,
        fun d' hd' => ⟨(bumpAgreement_domain_upd dom r d hdne hd).2 d' hd',
          (bumpDispute_domain_upd dom r d hdne hd).2 d' hd'⟩⟩
    · intro h
      exact ⟨bumpAgreement_domains_eq dom r h, bumpDispute_domains_eq dom r h⟩

/-- Witness for C9: on the concrete store, recording against an unknown
witness changes nothing, and recording an agreement for the known witness
increments its global and per-domain agreement counters. -/
theorem recordAgreementDispute_state_witness :
    RecordAgreement storeW [121] [] = storeW ∧
      lookupA (RecordAgreement storeW [119] [100]) [119] = some (bumpAgreement [100] recW) ∧
      (bumpAgreement [100] recW).agreedClaims = recW.agreedClaims + 1 ∧
      lookupA (bumpAgreement [100] recW).domains [100] =
        some { domRepW with agreedClaims := domRepW.agreedClaims + 1 } :=
  ⟨((recordAgreementDispute_state storeW [121] []).1 (by decide)).1,
   (((recordAgreementDispute_state storeW [119] [100]).2 recW (by decide)).1).1,
   ((recordAgreementDispute_state storeW [119] [100]).2 recW (by decide)).2.2.1.1,
   (((recordAgreementDispute_state storeW [119] [100]).2 recW (by decide)).2.2.2.2.1
       domRepW (by decide) (by decide)).1⟩

end ClaimGraph
